import Mathlib

/-!
Verification of the filtering and selection engine of the classical-map
application (`SiteMap` component).  The definitions below are shallow
embeddings of the JavaScript source: buildings and sites are records of
string-tag lists, JS `Set`s of selected filter values are modelled as lists
(only membership and emptiness are ever consulted), and the React state is
an explicit record threaded through the event handlers.
-/

namespace ClassicalMap

/-- A timeline segment from the static `timelineSegments` table:
`{id, label, start, end, tags}`.  `start`/`end` are signed years
(negative = BCE); `end` is renamed `endYear` because `end` is reserved. -/
structure Segment where
  id : String
  label : String
  startYear : Int
  endYear : Int
  tags : List String
deriving DecidableEq

/-- The six signature timeline segments, exactly as in the source. -/
def timelineSegments : List Segment := [
  { id := "archaic", label := "Archaic & Early", startYear := -800, endYear := -480,
    tags := ["Archaic", "Late Archaic", "Peisistratid"] },
  { id := "classical", label := "Classical", startYear := -480, endYear := -323,
    tags := ["Early Classical", "Periclean", "Classical", "Lycurgan Period", "Late Classical"] },
  { id := "hellenistic", label := "Hellenistic", startYear := -323, endYear := -30,
    tags := ["Hellenistic", "Early Hellenistic", "Late Hellenistic", "Seleucid", "Ptolemaic", "Pergamene"] },
  { id := "republican", label := "Republican", startYear := -509, endYear := -27,
    tags := ["Early Republican", "Middle Republican", "Late Republican", "Republican", "Sullan", "Caesarian Period", "Triumviral Period"] },
  { id := "earlyEmpire", label := "Early Empire", startYear := -27, endYear := 192,
    tags := ["Augustan", "Tiberian", "Julio-Claudian", "Flavian", "Nerva–Trajanian", "Hadrian", "Antonine"] },
  { id := "lateEmpire", label := "Late Empire", startYear := 193, endYear := 476,
    tags := ["Severan", "Crisis of 3rd Century", "Diocletian-Tetrarch", "Constantinian", "Late Roman", "Late Antique"] }]

/-- The fixed `allowedMorphologies` allow-list of recognized typology terms. -/
def allowedMorphologies : List String :=
  ["prostyle", "amphiprostyle", "pseudoperipteral", "peripteral", "dipteral",
   "pseudodipteral", "distyle in antis", "tetrastyle", "hexastyle",
   "octastyle", "nonastyle", "peristyle", "linear", "U-shape", "L-shape"]

/-- A building record: the fields of the GeoJSON `buildings` entries that the
engine reads (`doc_id`, display `id`, and the four tag-sequence attributes). -/
structure Building where
  doc_id : String
  id : String
  order : List String
  morphology : List String
  age : List String
  date : List String
deriving DecidableEq

/-- A GeoJSON feature as the engine sees it: a `site` name owning its
`buildings` list (geometry is irrelevant to filtering and selection). -/
structure Feature where
  site : String
  buildings : List Building
deriving DecidableEq

/-- The sanitizer's per-value predicate from the load effect:
`v && v.toLowerCase() !== 'undetermined' && v !== '<NA>'`.  A JS falsy tag
(null / empty string) is modelled as the empty string. -/
def keepTag (v : String) : Bool :=
  v ≠ "" && v.toLower ≠ "undetermined" && v ≠ "<NA>"

/-- One building after the load effect's inner loop, which reassigns each of
the four attribute arrays in order: `b[attr] = b[attr].filter(...)` for
`attr` in `['order','morphology','age','date']`. -/
def sanitizeAttrsInPlace (b : Building) : Building :=
  let b1 := { b with order := b.order.filter keepTag }
  let b2 := { b1 with morphology := b1.morphology.filter keepTag }
  let b3 := { b2 with age := b2.age.filter keepTag }
  { b3 with date := b3.date.filter keepTag }

/-- The value held by the `raw` reference after the load effect has run: the
code mutates `raw.features[i].properties.buildings[j]` in place, so this is
the raw payload's own post-load value, not a copy. -/
def rawAfterLoad (raw : List Feature) : List Feature :=
  raw.map fun f => { f with buildings := f.buildings.map sanitizeAttrsInPlace }

/-- The dataset published via `setData(raw)`: the very structure the load
effect just mutated (the canonical dataset aliases the raw payload). -/
def publishedData (raw : List Feature) : List Feature :=
  rawAfterLoad raw

/-- The Record Sanitizer as a pure record-to-record function: every
attribute sequence filtered by `keepTag`, all other fields unchanged. -/
def sanitizeBuilding (b : Building) : Building :=
  { b with
    order := b.order.filter keepTag
    morphology := b.morphology.filter keepTag
    age := b.age.filter keepTag
    date := b.date.filter keepTag }

/-- The Record Sanitizer lifted to whole datasets. -/
def sanitize (raw : List Feature) : List Feature :=
  raw.map fun f => { f with buildings := f.buildings.map sanitizeBuilding }

/-- The filterable attributes of the `filters` state object in the `doc_id`
variant: `{ order, morphology, age }` (each a `Set` of selected values). -/
inductive Attr where
  | order
  | morphology
  | age
deriving DecidableEq

/-- The Filter State: one set of selected values per attribute, modelled as
a list (only membership and non-emptiness are consulted). -/
structure Filters where
  order : List String
  morphology : List String
  age : List String
deriving DecidableEq

/-- Lookup `filters[attr]` — the selected-value set for one attribute. -/
def Filters.get (fs : Filters) : Attr → List String
  | .order => fs.order
  | .morphology => fs.morphology
  | .age => fs.age

/-- Functional update of one attribute's selected-value set. -/
def Filters.setAttr (fs : Filters) : Attr → List String → Filters
  | .order, s => { fs with order := s }
  | .morphology, s => { fs with morphology := s }
  | .age, s => { fs with age := s }

/-- Lookup `b[attr]` — one building's tag sequence for an attribute. -/
def Building.attrTags (b : Building) : Attr → List String
  | .order => b.order
  | .morphology => b.morphology
  | .age => b.age

/-- The initial / cleared Filter State: all three sets empty. -/
def emptyFilters : Filters := ⟨[], [], []⟩

/-- Source `Set.add` on a selected-value set (JS insertion order: appended). -/
def addFilterValue (fs : Filters) (a : Attr) (v : String) : Filters :=
  fs.setAttr a (fs.get a ++ [v])

/-- Source `Set.delete` on a selected-value set. -/
def removeFilterValue (fs : Filters) (a : Attr) (v : String) : Filters :=
  fs.setAttr a ((fs.get a).filter (· ≠ v))

/-- Handler `toggleFilter(attr, v)`: delete `v` if present, else add it. -/
def toggleFilter (fs : Filters) (a : Attr) (v : String) : Filters :=
  if (fs.get a).contains v then removeFilterValue fs a v else addFilterValue fs a v

/-- One attribute's test inside the `filteredData` loop.  The source rejects
a building when `set.size && ![...set].some(v => b[attr].includes(v))`, so a
building passes iff the set is empty or some selected value occurs among its
tags. -/
def attrTest (sel tags : List String) : Bool :=
  sel.isEmpty || sel.any fun v => tags.contains v

/-- The period test of the `filteredData` loop:
`!periodTags || b.age.some(tag => periodTags.has(tag))`. -/
def periodTest (periodTags : Option (List String)) (b : Building) : Bool :=
  match periodTags with
  | some pts => b.age.any fun t => pts.contains t
  | none => true

/-- The per-building filter predicate of `filteredData`: the loop
`for (let attr of ['order','morphology','age'])` of attribute tests, then
the period test. -/
def passes (fs : Filters) (periodTags : Option (List String)) (b : Building) : Bool :=
  ([Attr.order, Attr.morphology, Attr.age].all fun a =>
    attrTest (fs.get a) (b.attrTags a)) &&
  periodTest periodTags b

/-- Lookup `timelineSegments.find(s => s.id === pid).tags`:  `none` models the JS
`TypeError` thrown when `find` returns `undefined` on an unknown id (the
lookup crashes instead of producing a usable tag set). -/
def tagsOf (pid : String) : Option (List String) :=
  (timelineSegments.find? fun s => s.id == pid).map fun s => s.tags

/-- The body of `filteredData` once the period tag set is resolved: every
feature keeps the sub-list of its buildings that pass, and a feature whose
filtered list is empty is dropped (`bs.length ? {...} : null` then
`.filter(Boolean)`). -/
def filteredCore (data : List Feature) (fs : Filters) (pts : Option (List String)) :
    List Feature :=
  data.filterMap fun f =>
    let bs := f.buildings.filter (passes fs pts)
    if bs.isEmpty then none else some { f with buildings := bs }

/-- Function `filteredData` as a function of the canonical dataset, the Filter State
and `selectedPeriod`; `none` propagates the crash of the period-tag lookup
on an unknown period id. -/
def filteredData (data : List Feature) (fs : Filters) (sp : Option String) :
    Option (List Feature) :=
  match sp with
  | none => some (filteredCore data fs none)
  | some pid => (tagsOf pid).map fun pts => filteredCore data fs (some pts)

/-- All tag values of one attribute across all buildings of all sites, in
traversal order (the insertion order of the source's accumulator `Set`s). -/
def collectValues (data : List Feature) (a : Attr) : List String :=
  data.flatMap fun f => f.buildings.flatMap fun b => b.attrTags a

/-- Result of `Array.from` of an accumulator `Set`: first occurrences in insertion
order. -/
def optionValues (data : List Feature) (a : Attr) : List String :=
  (collectValues data a).eraseDups

/-- The `doc_id` variant's `allOptions.morphology`: distinct values,
restricted to `allowedMorphologies`, sorted. -/
def allOptionsMorphology (data : List Feature) : List String :=
  ((optionValues data .morphology).filter fun v =>
    allowedMorphologies.contains v).insertionSort (· ≤ ·)

/-- The `SiteMap_v4` variant's `allOptions.morphology`: distinct values,
sorted — with no allow-list restriction. -/
def allOptionsMorphologyV4 (data : List Feature) : List String :=
  (optionValues data .morphology).insertionSort (· ≤ ·)

/-- The component state the selection and filter handlers touch. -/
structure AppState where
  filters : Filters
  selectedPeriod : Option String
  selectedSite : Option String
  selectedBuildingDocId : Option String
deriving DecidableEq

/-- Handler `clearFilters`: fresh empty sets for all three attributes and
`setSelectedPeriod(null)`, leaving the selections alone. -/
def clearFilters (st : AppState) : AppState :=
  { st with filters := emptyFilters, selectedPeriod := none }

/-- The stale-selection effect: when a building is selected and no building
of the freshly filtered dataset carries its `doc_id`, the selection is
cleared (`setSelectedBuildingDocId(null)`); nothing else changes. -/
def clearStaleSelection (fd : List Feature) (st : AppState) : AppState :=
  match st.selectedBuildingDocId with
  | none => st
  | some d =>
    if fd.any (fun f => f.buildings.any fun b => b.doc_id == d) then st
    else { st with selectedBuildingDocId := none }

/-- Derived `visibleDocIds`: the doc ids of the buildings of the filtered feature
for the selected site (empty when no feature matches, as with the source's
`?.` and `|| []`). -/
def visibleDocIds (fd : List Feature) (ss : Option String) : List String :=
  match fd.find? fun f => some f.site == ss with
  | some f => f.buildings.map fun b => b.doc_id
  | none => []

/-- The building-list click handler:
`onClick={() => isVisible && setSelectedBuildingDocId(b.doc_id)}` with
`isVisible = visibleDocIds.has(b.doc_id)` — selection happens only for a
currently visible doc id. -/
def selectBuildingClick (fd : List Feature) (st : AppState) (docId : String) : AppState :=
  if (visibleDocIds fd st.selectedSite).contains docId then
    { st with selectedBuildingDocId := some docId }
  else st

/-- Spec-side rendering of one attribute test, for the refinement claim: a
non-empty Filter State set requires at least one of the building's tags for
that attribute to be a member; an empty set imposes no constraint. -/
def specAttrOk (sel tags : List String) : Prop :=
  sel ≠ [] → ∃ v ∈ sel, v ∈ tags

/-- Spec-side rendering of the period test: when a period is selected, the
building's `age` tag sequence intersects that period's tag set. -/
def specPeriodOk (sp : Option String) (b : Building) : Prop :=
  ∀ pid, sp = some pid → ∃ pts, tagsOf pid = some pts ∧ ∃ t ∈ b.age, t ∈ pts

/-- Spec-side retention predicate: the conjunction of every attribute's test
and the period test. -/
def specRetained (fs : Filters) (sp : Option String) (b : Building) : Prop :=
  (∀ a : Attr, specAttrOk (fs.get a) (b.attrTags a)) ∧ specPeriodOk sp b

/-- Membership of a (site, building) pair in a dataset. -/
def inDataset (d : List Feature) (s : String) (b : Building) : Prop :=
  ∃ f ∈ d, f.site = s ∧ b ∈ f.buildings

/-- One dataset contains at most the (site, building) pairs of another. -/
def datasetSubset (d1 d2 : List Feature) : Prop :=
  ∀ s b, inDataset d1 s b → inDataset d2 s b

lemma attrTest_iff {sel tags : List String} :
    attrTest sel tags = true ↔ specAttrOk sel tags := by
  simp [attrTest, specAttrOk, List.isEmpty_iff, List.any_eq_true, or_iff_not_imp_left]

lemma passes_iff_forall {fs : Filters} {pts : Option (List String)} {b : Building} :
    passes fs pts b = true ↔
      (∀ a : Attr, attrTest (fs.get a) (b.attrTags a) = true) ∧
        periodTest pts b = true := by
  unfold passes
  rw [Bool.and_eq_true, List.all_eq_true]
  constructor
  · rintro ⟨hall, hp⟩
    exact ⟨fun a => hall a (by cases a <;> simp), hp⟩
  · rintro ⟨hall, hp⟩
    exact ⟨fun a _ => hall a, hp⟩

lemma periodTest_iff {pts : Option (List String)} {b : Building} :
    periodTest pts b = true ↔ ∀ p, pts = some p → ∃ t ∈ b.age, t ∈ p := by
  cases pts with
  | none => simp [periodTest]
  | some p => simp [periodTest, List.any_eq_true]

lemma mem_filteredCore_iff {data : List Feature} {fs : Filters}
    {pts : Option (List String)} {g : Feature} :
    g ∈ filteredCore data fs pts ↔
      ∃ f ∈ data, f.buildings.filter (passes fs pts) ≠ [] ∧
        g = { f with buildings := f.buildings.filter (passes fs pts) } := by
  unfold filteredCore
  rw [List.mem_filterMap]
  constructor
  · rintro ⟨f, hf, hsome⟩
    simp only at hsome
    by_cases hemp : (f.buildings.filter (passes fs pts)).isEmpty
    · rw [if_pos hemp] at hsome
      exact absurd hsome (by simp)
    · rw [if_neg hemp] at hsome
      refine ⟨f, hf, ?_, (Option.some.injEq _ _ ▸ hsome).symm⟩
      simpa [List.isEmpty_iff] using hemp
  · rintro ⟨f, hf, hne, rfl⟩
    refine ⟨f, hf, ?_⟩
    simp only
    rw [if_neg (by simpa [List.isEmpty_iff] using hne)]

lemma exists_retained_iff_passes {data : List Feature} {fs : Filters}
    {pts : Option (List String)} {f : Feature} {b : Building}
    (hf : f ∈ data) (hb : b ∈ f.buildings) :
    (∃ g ∈ filteredCore data fs pts, g.site = f.site ∧ b ∈ g.buildings) ↔
      passes fs pts b = true := by
  constructor
  · rintro ⟨g, hg, _, hbg⟩
    rcases mem_filteredCore_iff.1 hg with ⟨f0, _, _, rfl⟩
    exact (List.mem_filter.1 hbg).2
  · intro hp
    have hbf : b ∈ f.buildings.filter (passes fs pts) := List.mem_filter.2 ⟨hb, hp⟩
    refine ⟨{ f with buildings := f.buildings.filter (passes fs pts) }, ?_, rfl, hbf⟩
    exact mem_filteredCore_iff.2 ⟨f, hf, List.ne_nil_of_mem hbf, rfl⟩

lemma filteredCore_mono {fs1 fs2 : Filters} {pts : Option (List String)}
    (data : List Feature)
    (h : ∀ b, passes fs1 pts b = true → passes fs2 pts b = true) :
    datasetSubset (filteredCore data fs1 pts) (filteredCore data fs2 pts) := by
  rintro s b ⟨g, hg, hsite, hbg⟩
  rcases mem_filteredCore_iff.1 hg with ⟨f, hf, _, rfl⟩
  rcases List.mem_filter.1 hbg with ⟨hbf, hp1⟩
  have hp2 := h b hp1
  have hbf2 : b ∈ f.buildings.filter (passes fs2 pts) := List.mem_filter.2 ⟨hbf, hp2⟩
  refine ⟨{ f with buildings := f.buildings.filter (passes fs2 pts) }, ?_, hsite, hbf2⟩
  exact mem_filteredCore_iff.2 ⟨f, hf, List.ne_nil_of_mem hbf2, rfl⟩

lemma get_setAttr_self (fs : Filters) (a : Attr) (s : List String) :
    (fs.setAttr a s).get a = s := by
  cases a <;> rfl

lemma get_setAttr_of_ne (fs : Filters) {a a' : Attr} (s : List String) (h : a ≠ a') :
    (fs.setAttr a s).get a' = fs.get a' := by
  cases a <;> cases a' <;> first | rfl | exact absurd rfl h

/-- Claim C9: when a period id is not one of the six defined segment ids,
the Filter Engine's period-tag lookup fails fatally (the `undefined.tags`
access, modelled as `none`) instead of returning a usable tag set; for each
of the six known ids it yields exactly that segment's tag list. -/
theorem c9_invalid_period :
    (∀ pid, pid ∉ timelineSegments.map (fun s => s.id) → tagsOf pid = none) ∧
    (∀ s ∈ timelineSegments, tagsOf s.id = some s.tags) := by
  constructor
  · intro pid h
    unfold tagsOf
    rw [List.find?_eq_none.2, Option.map_none']
    intro s hs
    simp only [beq_iff_eq]
    exact fun he => h (List.mem_map.2 ⟨s, hs, he⟩)
  · decide

/-- Witness for C9 at the unknown id `"imperial"` and the known id
`"archaic"`. -/
theorem c9_invalid_period_witness :
    tagsOf "imperial" = none ∧
      tagsOf "archaic" = some ["Archaic", "Late Archaic", "Peisistratid"] :=
  ⟨c9_invalid_period.1 "imperial" (by decide),
   c9_invalid_period.2 ⟨"archaic", "Archaic & Early", -800, -480,
      ["Archaic", "Late Archaic", "Peisistratid"]⟩ (by decide)⟩

/-- Claim C10: `clearFilters` empties every attribute's selected set and
also resets the selected period to `none` in the same transition, so the
next derived dataset is computed with no attribute constraint (every
building passes the attribute loop) and no period constraint. -/
theorem c10_clear_filters_resets_period (st : AppState) :
    (∀ a : Attr, (clearFilters st).filters.get a = []) ∧
    (clearFilters st).selectedPeriod = none ∧
    (∀ b : Building, passes (clearFilters st).filters none b = true) := by
  refine ⟨fun a => ?_, rfl, fun b => rfl⟩
  cases a <;> rfl

/-- Claim C6: when a building selection is set and the freshly recomputed
derived dataset contains no building with that doc id, the stale-selection
effect clears the building selection while leaving the selected site
untouched. -/
theorem c6_stale_selection_clearing (data : List Feature) (fs : Filters)
    (pts : Option (List String)) (st : AppState) (d : String)
    (hsel : st.selectedBuildingDocId = some d)
    (hgone : ∀ f ∈ filteredCore data fs pts, ∀ b ∈ f.buildings, b.doc_id ≠ d) :
    (clearStaleSelection (filteredCore data fs pts) st).selectedBuildingDocId = none ∧
    (clearStaleSelection (filteredCore data fs pts) st).selectedSite = st.selectedSite := by
  have hany : (filteredCore data fs pts).any
      (fun f => f.buildings.any fun b => b.doc_id == d) = false := by
    rw [List.any_eq_false]
    intro f hf
    rw [Bool.not_eq_true, List.any_eq_false]
    intro b hb
    simpa using hgone f hf b hb
  unfold clearStaleSelection
  rw [hsel]
  simp [hany]

/-- Witness for C6: a selected building whose site is excluded by an
`order` filter is cleared, and the selected site survives. -/
theorem c6_stale_selection_clearing_witness :
    (clearStaleSelection
      (filteredCore [⟨"S", [⟨"D1", "B1", ["Ionic"], [], [], []⟩]⟩]
        ⟨["Doric"], [], []⟩ none)
      ⟨emptyFilters, none, some "S", some "D1"⟩).selectedBuildingDocId = none ∧
    (clearStaleSelection
      (filteredCore [⟨"S", [⟨"D1", "B1", ["Ionic"], [], [], []⟩]⟩]
        ⟨["Doric"], [], []⟩ none)
      ⟨emptyFilters, none, some "S", some "D1"⟩).selectedSite = some "S" :=
  c6_stale_selection_clearing [⟨"S", [⟨"D1", "B1", ["Ionic"], [], [], []⟩]⟩]
    ⟨["Doric"], [], []⟩ none ⟨emptyFilters, none, some "S", some "D1"⟩ "D1"
    rfl (by decide)

/-- Claim C7: the building-list click handler is a no-op for a doc id that
is not currently visible (post-filter) under the selected site — the state,
and in particular the building selection, is unchanged. -/
theorem c7_visibility_gate (data : List Feature) (st : AppState)
    (pts : Option (List String)) (docId : String)
    (h : docId ∉ visibleDocIds (filteredCore data st.filters pts) st.selectedSite) :
    selectBuildingClick (filteredCore data st.filters pts) st docId = st := by
  unfold selectBuildingClick
  rw [if_neg]
  simpa using h

/-- Witness for C7: clicking the filtered-out building `"D1"` leaves the
state unchanged. -/
theorem c7_visibility_gate_witness :
    selectBuildingClick
      (filteredCore [⟨"S", [⟨"D1", "B1", ["Ionic"], [], [], []⟩]⟩]
        ⟨["Doric"], [], []⟩ none)
      ⟨⟨["Doric"], [], []⟩, none, some "S", none⟩ "D1" =
      ⟨⟨["Doric"], [], []⟩, none, some "S", none⟩ :=
  c7_visibility_gate [⟨"S", [⟨"D1", "B1", ["Ionic"], [], [], []⟩]⟩]
    ⟨⟨["Doric"], [], []⟩, none, some "S", none⟩ none "D1" (by decide)

/-- Claim C3, counterexample: a canonical dataset containing a site with an
empty building list is not reproduced by the empty filter — the site is
pruned (`bs.length` is falsy), so the derived dataset is not equal to the
canonical one. -/
theorem c3_empty_filter_not_identity :
    filteredData [⟨"X", []⟩] emptyFilters none ≠ some [⟨"X", []⟩] := by
  decide

/-- Claim C3 (amended): with all attribute sets empty and no selected
period, the derived dataset equals the canonical dataset exactly — same
sites, same buildings, same order — provided every site of the canonical
dataset has at least one building. -/
theorem c3_empty_filter_identity_amended (data : List Feature)
    (h : ∀ f ∈ data, f.buildings ≠ []) :
    filteredData data emptyFilters none = some data := by
  simp only [filteredData, Option.some.injEq]
  induction data with
  | nil => rfl
  | cons f rest ih =>
    have hf : f.buildings.isEmpty = false := by
      simpa [List.isEmpty_iff] using h f (List.mem_cons_self f rest)
    have hfil : f.buildings.filter (passes emptyFilters none) = f.buildings :=
      List.filter_eq_self.2 fun b _ => rfl
    have ih2 := ih fun g hg => h g (List.mem_cons_of_mem f hg)
    simp only [filteredCore] at ih2 ⊢
    rw [List.filterMap_cons]
    simp only [hfil, hf, Bool.false_eq_true, if_false, ih2]

/-- Witness for the amended C3 on a one-site, one-building dataset. -/
theorem c3_empty_filter_identity_witness :
    filteredData [⟨"S", [⟨"D1", "B1", [], [], [], []⟩]⟩] emptyFilters none =
      some [⟨"S", [⟨"D1", "B1", [], [], [], []⟩]⟩] :=
  c3_empty_filter_identity_amended [⟨"S", [⟨"D1", "B1", [], [], [], []⟩]⟩]
    (by decide)

/-- Claim C8: a feature appears in the derived dataset iff at least one of
its buildings passes the active filters; a retained feature carries exactly
the passing subsequence of its buildings; and no retained feature has an
empty building list. -/
theorem c8_site_pruning (data : List Feature) (fs : Filters)
    (pts : Option (List String)) (g : Feature) :
    (g ∈ filteredCore data fs pts ↔
      ∃ f ∈ data, (∃ b ∈ f.buildings, passes fs pts b = true) ∧
        g = { f with buildings := f.buildings.filter (passes fs pts) }) ∧
    (g ∈ filteredCore data fs pts → g.buildings ≠ []) := by
  constructor
  · rw [mem_filteredCore_iff]
    constructor
    · rintro ⟨f, hf, hne, rfl⟩
      rcases List.exists_mem_of_ne_nil _ hne with ⟨b, hbmem⟩
      rcases List.mem_filter.1 hbmem with ⟨hb, hp⟩
      exact ⟨f, hf, ⟨b, hb, hp⟩, rfl⟩
    · rintro ⟨f, hf, ⟨b, hb, hp⟩, rfl⟩
      exact ⟨f, hf, List.ne_nil_of_mem (List.mem_filter.2 ⟨hb, hp⟩), rfl⟩
  · intro hg
    rcases mem_filteredCore_iff.1 hg with ⟨f, _, hne, rfl⟩
    exact hne

/-- Witness for C8: a concrete retained feature has a non-empty building
list. -/
theorem c8_site_pruning_witness :
    (⟨"S", [⟨"D1", "B1", [], [], ["Archaic"], []⟩]⟩ : Feature).buildings ≠ [] :=
  (c8_site_pruning [⟨"S", [⟨"D1", "B1", [], [], ["Archaic"], []⟩]⟩]
    emptyFilters none ⟨"S", [⟨"D1", "B1", [], [], ["Archaic"], []⟩]⟩).2
    (by decide)

/-- Claim C1: a building of the canonical dataset is retained by the Filter
Engine (appears under its site in the derived dataset) iff, for every
attribute, a non-empty Filter State set contains at least one of the
building's tags for that attribute (an empty set imposes no constraint),
and, when a period is selected, the building's `age` tags intersect the
selected period's tag set — the conjunction of all active attribute tests
and the period test. -/
theorem c1_filter_retention_rule (data : List Feature) (fs : Filters)
    (sp : Option String) (out : List Feature) (f : Feature) (b : Building)
    (hout : filteredData data fs sp = some out)
    (hf : f ∈ data) (hb : b ∈ f.buildings) :
    (∃ g ∈ out, g.site = f.site ∧ b ∈ g.buildings) ↔ specRetained fs sp b := by
  unfold specRetained specPeriodOk
  cases sp with
  | none =>
    have hout2 : out = filteredCore data fs none := by
      simpa [filteredData] using hout.symm
    subst hout2
    rw [exists_retained_iff_passes hf hb, passes_iff_forall, periodTest_iff]
    constructor
    · rintro ⟨hall, -⟩
      exact ⟨fun a => attrTest_iff.1 (hall a), fun pid hpid => by cases hpid⟩
    · rintro ⟨hall, -⟩
      exact ⟨fun a => attrTest_iff.2 (hall a), fun p hp => by cases hp⟩
  | some pid =>
    rcases Option.map_eq_some'.1 (by simpa [filteredData] using hout) with
      ⟨pts, hpts, hout2⟩
    subst hout2
    rw [exists_retained_iff_passes hf hb, passes_iff_forall, periodTest_iff]
    constructor
    · rintro ⟨hall, hper⟩
      refine ⟨fun a => attrTest_iff.1 (hall a), fun pid2 hpid2 => ?_⟩
      have hpe : pid = pid2 := Option.some.inj hpid2
      subst hpe
      exact ⟨pts, hpts, hper pts rfl⟩
    · rintro ⟨hall, hper⟩
      refine ⟨fun a => attrTest_iff.2 (hall a), fun p hp => ?_⟩
      have hpp : pts = p := Option.some.inj hp
      subst hpp
      rcases hper pid rfl with ⟨pts2, hpts2, hint⟩
      rw [hpts] at hpts2
      rw [Option.some.inj hpts2]
      exact hint

/-- Witness for C1 on a one-site dataset with the `"classical"` period
selected and an `order` filter active. -/
theorem c1_filter_retention_rule_witness :
    (∃ g ∈ filteredCore [⟨"S", [⟨"D1", "B1", ["Doric"], [], ["Classical"], []⟩]⟩]
        ⟨["Doric"], [], []⟩
        (some ["Early Classical", "Periclean", "Classical", "Lycurgan Period", "Late Classical"]),
      g.site = "S" ∧ (⟨"D1", "B1", ["Doric"], [], ["Classical"], []⟩ : Building) ∈ g.buildings) :=
  (c1_filter_retention_rule [⟨"S", [⟨"D1", "B1", ["Doric"], [], ["Classical"], []⟩]⟩]
    ⟨["Doric"], [], []⟩ (some "classical")
    (filteredCore [⟨"S", [⟨"D1", "B1", ["Doric"], [], ["Classical"], []⟩]⟩]
      ⟨["Doric"], [], []⟩
      (some ["Early Classical", "Periclean", "Classical", "Lycurgan Period", "Late Classical"]))
    ⟨"S", [⟨"D1", "B1", ["Doric"], [], ["Classical"], []⟩]⟩
    ⟨"D1", "B1", ["Doric"], [], ["Classical"], []⟩
    rfl (by decide) (by decide)).mpr
    ⟨fun a => by cases a <;> simp [Filters.get, Building.attrTags, specAttrOk],
     fun pid hpid => by
      refine ⟨["Early Classical", "Periclean", "Classical", "Lycurgan Period", "Late Classical"],
        ?_, "Classical", by decide, by decide⟩
      obtain rfl : pid = "classical" := by injection hpid.symm
      decide⟩

lemma attrTest_of_any {sel tags : List String}
    (h : (sel.any fun v => tags.contains v) = true) : attrTest sel tags = true := by
  unfold attrTest
  rw [h, Bool.or_true]

lemma any_of_attrTest {sel tags : List String} (hne : sel ≠ [])
    (h : attrTest sel tags = true) : (sel.any fun v => tags.contains v) = true := by
  have h1 : sel.isEmpty = false := by simpa [List.isEmpty_iff] using hne
  unfold attrTest at h
  rwa [h1, Bool.false_or] at h

lemma passes_mono_attr {fs1 fs2 : Filters} {pts : Option (List String)}
    (h : ∀ a : Attr, ∀ tags, attrTest (fs1.get a) tags = true →
      attrTest (fs2.get a) tags = true) :
    ∀ b, passes fs1 pts b = true → passes fs2 pts b = true := by
  intro b hp
  rw [passes_iff_forall] at hp ⊢
  exact ⟨fun a => h a _ (hp.1 a), hp.2⟩

/-- Claim C2, counterexample: with OR-within-attribute semantics, adding
`"Ionic"` to the already non-empty `order` set `{"Doric"}` lets a building
with `order = ["Ionic"]` through, so the derived dataset grows — it is not
a subset of the dataset before the addition. -/
theorem c2_add_value_not_shrinking :
    ¬ datasetSubset
        (filteredCore [⟨"S", [⟨"D1", "B1", ["Ionic"], [], [], []⟩]⟩]
          (addFilterValue ⟨["Doric"], [], []⟩ .order "Ionic") none)
        (filteredCore [⟨"S", [⟨"D1", "B1", ["Ionic"], [], [], []⟩]⟩]
          ⟨["Doric"], [], []⟩ none) := by
  intro h
  have h2 := h "S" ⟨"D1", "B1", ["Ionic"], [], [], []⟩
    ⟨⟨"S", [⟨"D1", "B1", ["Ionic"], [], [], []⟩]⟩, by decide, rfl, by decide⟩
  rw [show filteredCore [⟨"S", [⟨"D1", "B1", ["Ionic"], [], [], []⟩]⟩]
      ⟨["Doric"], [], []⟩ none = [] from by decide] at h2
  rcases h2 with ⟨f, hf, -⟩
  exact absurd hf (List.not_mem_nil f)

/-- Claim C2 (amended): adding a value to an attribute's selected set
shrinks the derived dataset (subset) only when that set was previously
empty; adding to an already non-empty set grows it (superset).
Symmetrically, removing a value shrinks the derived dataset when the set
stays non-empty, and grows it when the removal empties the set. -/
theorem c2_filter_monotonicity_amended (data : List Feature) (fs : Filters)
    (pts : Option (List String)) (a : Attr) (v : String) :
    (fs.get a = [] →
      datasetSubset (filteredCore data (addFilterValue fs a v) pts)
        (filteredCore data fs pts)) ∧
    (fs.get a ≠ [] →
      datasetSubset (filteredCore data fs pts)
        (filteredCore data (addFilterValue fs a v) pts)) ∧
    ((fs.get a).filter (· ≠ v) ≠ [] →
      datasetSubset (filteredCore data (removeFilterValue fs a v) pts)
        (filteredCore data fs pts)) ∧
    ((fs.get a).filter (· ≠ v) = [] →
      datasetSubset (filteredCore data fs pts)
        (filteredCore data (removeFilterValue fs a v) pts)) := by
  refine ⟨fun hemp => ?_, fun hne => ?_, fun hne => ?_, fun hemp => ?_⟩
  · refine filteredCore_mono data (passes_mono_attr fun a2 tags hT => ?_)
    by_cases haa : a = a2
    · subst haa
      rw [hemp]
      rfl
    · rwa [addFilterValue, get_setAttr_of_ne fs _ haa] at hT
  · refine filteredCore_mono data (passes_mono_attr fun a2 tags hT => ?_)
    by_cases haa : a = a2
    · subst haa
      rw [addFilterValue, get_setAttr_self]
      apply attrTest_of_any
      rw [List.any_append, any_of_attrTest hne hT]
      rfl
    · rwa [addFilterValue, get_setAttr_of_ne fs _ haa]
  · refine filteredCore_mono data (passes_mono_attr fun a2 tags hT => ?_)
    by_cases haa : a = a2
    · subst haa
      rw [removeFilterValue, get_setAttr_self] at hT
      rcases List.any_eq_true.1 (any_of_attrTest hne hT) with ⟨x, hx, hpx⟩
      exact attrTest_of_any (List.any_eq_true.2 ⟨x, List.mem_of_mem_filter hx, hpx⟩)
    · rwa [removeFilterValue, get_setAttr_of_ne fs _ haa] at hT
  · refine filteredCore_mono data (passes_mono_attr fun a2 tags hT => ?_)
    by_cases haa : a = a2
    · subst haa
      rw [removeFilterValue, get_setAttr_self, hemp]
      rfl
    · rwa [removeFilterValue, get_setAttr_of_ne fs _ haa]

/-- Witness for the amended C2: all four direction hypotheses discharged on
concrete Filter States. -/
theorem c2_filter_monotonicity_witness :
    datasetSubset
      (filteredCore [⟨"S", [⟨"D1", "B1", ["Ionic"], [], [], []⟩]⟩]
        (addFilterValue emptyFilters .order "Doric") none)
      (filteredCore [⟨"S", [⟨"D1", "B1", ["Ionic"], [], [], []⟩]⟩]
        emptyFilters none) ∧
    datasetSubset
      (filteredCore [⟨"S", [⟨"D1", "B1", ["Ionic"], [], [], []⟩]⟩]
        ⟨["Doric"], [], []⟩ none)
      (filteredCore [⟨"S", [⟨"D1", "B1", ["Ionic"], [], [], []⟩]⟩]
        (addFilterValue ⟨["Doric"], [], []⟩ .order "Ionic") none) ∧
    datasetSubset
      (filteredCore [⟨"S", [⟨"D1", "B1", ["Ionic"], [], [], []⟩]⟩]
        (removeFilterValue ⟨["Doric", "Ionic"], [], []⟩ .order "Ionic") none)
      (filteredCore [⟨"S", [⟨"D1", "B1", ["Ionic"], [], [], []⟩]⟩]
        ⟨["Doric", "Ionic"], [], []⟩ none) ∧
    datasetSubset
      (filteredCore [⟨"S", [⟨"D1", "B1", ["Ionic"], [], [], []⟩]⟩]
        ⟨["Doric"], [], []⟩ none)
      (filteredCore [⟨"S", [⟨"D1", "B1", ["Ionic"], [], [], []⟩]⟩]
        (removeFilterValue ⟨["Doric"], [], []⟩ .order "Doric") none) :=
  ⟨(c2_filter_monotonicity_amended _ emptyFilters none .order "Doric").1 rfl,
   (c2_filter_monotonicity_amended _ ⟨["Doric"], [], []⟩ none .order "Ionic").2.1
     (by decide),
   (c2_filter_monotonicity_amended _ ⟨["Doric", "Ionic"], [], []⟩ none .order
     "Ionic").2.2.1 (by decide),
   (c2_filter_monotonicity_amended _ ⟨["Doric"], [], []⟩ none .order
     "Doric").2.2.2 (by decide)⟩

/-- Claim C4, counterexample: the load effect reassigns each building's
attribute arrays on the fetched object itself, so after loading a raw
payload containing a placeholder tag (here a falsy/empty value) the raw
structure no longer equals what was received — the "original input
structure is unchanged" part of the claim fails. -/
theorem c4_raw_payload_mutated :
    rawAfterLoad [⟨"X", [⟨"D1", "B1", [""], [], [], []⟩]⟩] ≠
      [⟨"X", [⟨"D1", "B1", [""], [], [], []⟩]⟩] := by
  decide

lemma sanitizeAttrsInPlace_eq_self {b : Building}
    (h : ∀ v ∈ b.order ++ b.morphology ++ b.age ++ b.date, keepTag v = true) :
    sanitizeAttrsInPlace b = b := by
  obtain ⟨d, i, o, m, g, t⟩ := b
  simp only [sanitizeAttrsInPlace, Building.mk.injEq, true_and]
  refine ⟨?_, ?_, ?_, ?_⟩ <;>
    exact List.filter_eq_self.2 fun v hv => h v (by simp_all)

/-- Claim C4 (amended): the load effect rewrites each building's attribute
arrays on the raw payload in place and publishes that same mutated
structure via `setData` — no separate cleaned copy exists; the raw payload
is left unchanged only when every one of its attribute tags already passes
the sanitizer's keep predicate. -/
theorem c4_load_effect_amended (raw : List Feature)
    (h : ∀ f ∈ raw, ∀ b ∈ f.buildings,
      ∀ v ∈ b.order ++ b.morphology ++ b.age ++ b.date, keepTag v = true) :
    rawAfterLoad raw = raw ∧
      (∀ raw2 : List Feature, publishedData raw2 = rawAfterLoad raw2 ∧
        rawAfterLoad raw2 = sanitize raw2) := by
  refine ⟨?_, fun raw2 => ⟨rfl, rfl⟩⟩
  unfold rawAfterLoad
  have hfix : ∀ f ∈ raw,
      { f with buildings := f.buildings.map sanitizeAttrsInPlace } = f := by
    intro f hf
    obtain ⟨s, bs⟩ := f
    simp only [Feature.mk.injEq, true_and]
    have hb : ∀ b ∈ bs, sanitizeAttrsInPlace b = b := fun b hb =>
      sanitizeAttrsInPlace_eq_self (h _ hf b hb)
    exact (List.map_congr_left hb).trans (List.map_id bs)
  exact (List.map_congr_left hfix).trans (List.map_id raw)

/-- Witness for the amended C4 on a payload with no attribute tags. -/
theorem c4_load_effect_amended_witness :
    rawAfterLoad [⟨"X", [⟨"D1", "B1", [], [], [], []⟩]⟩] =
      [⟨"X", [⟨"D1", "B1", [], [], [], []⟩]⟩] :=
  (c4_load_effect_amended [⟨"X", [⟨"D1", "B1", [], [], [], []⟩]⟩] (by decide)).1

/-- Claim C5 (amended): in the `doc_id` variant every value of the
morphology option list belongs to the fixed allow-list; the `SiteMap_v4`
variant performs no such restriction (see the counterexample). -/
theorem c5_morphology_option_restriction (data : List Feature) (v : String)
    (h : v ∈ allOptionsMorphology data) : v ∈ allowedMorphologies := by
  unfold allOptionsMorphology at h
  rw [List.mem_insertionSort] at h
  simpa using (List.mem_filter.1 h).2

/-- Witness for the amended C5 on a one-building dataset. -/
theorem c5_morphology_option_witness : "peripteral" ∈ allowedMorphologies :=
  c5_morphology_option_restriction
    [⟨"S", [⟨"D1", "B1", [], ["peripteral"], [], []⟩]⟩] "peripteral" (by decide)

/-- Claim C5, counterexample: the `SiteMap_v4` variant's morphology option
list keeps a post-sanitization tag that is outside the allow-list. -/
theorem c5_v4_option_unrestricted :
    "ziggurat" ∈ allOptionsMorphologyV4
        [⟨"S", [⟨"D1", "B1", [], ["ziggurat"], [], []⟩]⟩] ∧
      "ziggurat" ∉ allowedMorphologies := by
  decide

end ClassicalMap
